import Mathlib

/-
Verification of the celestial-position calculator of the Galactic-Moon
repository (src/moon.py, class MoonPosition, and the background classifier
get_background_color of src/main.py).

The Python floating-point arithmetic is embedded as exact real arithmetic:
every numeric value is a real number, math.sin / math.cos / math.tan /
math.asin / math.acos / math.atan2 are the corresponding real functions,
and math.radians / math.degrees are multiplication by pi/180 and 180/pi.
Each definition below names the source construct it embeds.
-/

/-- Embeds math.radians: degrees to radians. -/
noncomputable def radians (x : ℝ) : ℝ := x * (Real.pi / 180)

/-- Embeds math.degrees: radians to degrees. -/
noncomputable def degrees (x : ℝ) : ℝ := x * (180 / Real.pi)

/-- moon.py line 18: self.days_to_secs = 60 * 60 * 24. -/
noncomputable def days_to_secs : ℝ := 60 * 60 * 24

/-- moon.py line 19: self.obl_e = math.radians(23.4397), obliquity of the Earth. -/
noncomputable def obl_e : ℝ := radians 23.4397

/-- moon.py lines 21-32, MoonPosition.to_days_J2000:
julian_date = date / self.days_to_secs - 0.5 + 2440588; return julian_date - 2451545. -/
noncomputable def to_days_J2000 (date : ℝ) : ℝ :=
  date / days_to_secs - 0.5 + 2440588 - 2451545

/-- moon.py lines 34-46, MoonPosition.sidereal_time:
math.radians(280.16 + 360.9856235 * d) - lw. -/
noncomputable def sidereal_time (d lw : ℝ) : ℝ :=
  radians (280.16 + 360.9856235 * d) - lw

/-- Embeds math.atan2 over the reals (the standard two-argument arctangent;
Python's result for real, non-signed-zero arguments).  Range: -pi < atan2 y x
when y is not a negative-zero, and atan2 y x <= pi. -/
noncomputable def atan2 (y x : ℝ) : ℝ :=
  if 0 < x then Real.arctan (y / x)
  else if x = 0 then
    if 0 < y then Real.pi / 2
    else if y < 0 then -(Real.pi / 2)
    else 0
  else if 0 ≤ y then Real.arctan (y / x) + Real.pi
  else Real.arctan (y / x) - Real.pi

/-- moon.py line 59: mean longitude of the sun. -/
noncomputable def l_sun (d : ℝ) : ℝ := radians (280.460 + 0.9856474 * d)

/-- moon.py line 62: mean anomaly of the sun. -/
noncomputable def g_sun (d : ℝ) : ℝ := radians (357.528 + 0.9856003 * d)

/-- moon.py line 65: ecliptic longitude of the sun with perturbation. -/
noncomputable def lambda_sun (d : ℝ) : ℝ :=
  l_sun d + radians (1.915 * Real.sin (g_sun d) + 0.020 * Real.sin (2 * g_sun d))

/-- moon.py line 71: the argument passed to math.asin for the sun declination. -/
noncomputable def sun_dec_arg (d : ℝ) : ℝ :=
  Real.sin obl_e * Real.sin (lambda_sun d)

/-- moon.py line 68: right ascension of the sun. -/
noncomputable def sun_ra (d : ℝ) : ℝ :=
  atan2 (Real.cos obl_e * Real.sin (lambda_sun d)) (Real.cos (lambda_sun d))

/-- moon.py line 71: declination of the sun. -/
noncomputable def sun_dec (d : ℝ) : ℝ := Real.arcsin (sun_dec_arg d)

/-- moon.py lines 48-73, MoonPosition.sun_position: returns (ra_sun, dec_sun). -/
noncomputable def sun_position (d : ℝ) : ℝ × ℝ := (sun_ra d, sun_dec d)

/-- moon.py lines 89-92: the argument passed to math.acos in moon_brightness
(the cosine of the phase angle between Moon and Sun). -/
noncomputable def phase_arg (moon_ra_v moon_dec_v sun_ra_v sun_dec_v : ℝ) : ℝ :=
  Real.sin sun_dec_v * Real.sin moon_dec_v +
    Real.cos sun_dec_v * Real.cos moon_dec_v * Real.cos (sun_ra_v - moon_ra_v)

/-- moon.py lines 75-98, MoonPosition.moon_brightness:
phase_angle = math.acos(...); illuminated_fraction = (1 + math.cos(phase_angle)) / 2. -/
noncomputable def moon_brightness (moon_ra_v moon_dec_v sun_ra_v sun_dec_v : ℝ) : ℝ :=
  (1 + Real.cos (Real.arccos (phase_arg moon_ra_v moon_dec_v sun_ra_v sun_dec_v))) / 2

/-- moon.py line 117: mean longitude of the moon. -/
noncomputable def l_moon (dt : ℝ) : ℝ := radians (218.316 + 13.176396 * dt)

/-- moon.py line 118: mean anomaly of the moon. -/
noncomputable def mean_an (dt : ℝ) : ℝ := radians (134.963 + 13.064993 * dt)

/-- moon.py line 119: mean distance of the moon from its ascending node. -/
noncomputable def dist_m (dt : ℝ) : ℝ := radians (93.272 + 13.229350 * dt)

/-- moon.py line 121: longitude with perturbation. -/
noncomputable def long_pert (dt : ℝ) : ℝ :=
  l_moon dt + radians (6.289 * Real.sin (mean_an dt))

/-- moon.py line 122: latitude with perturbation. -/
noncomputable def lat_pert (dt : ℝ) : ℝ := radians (5.128 * Real.sin (dist_m dt))

/-- moon.py line 123: distance to the moon in km, with perturbation. -/
noncomputable def moon_dist_pert (dt : ℝ) : ℝ := 385001 - 20905 * Real.cos (mean_an dt)

/-- moon.py line 126: right ascension of the moon. -/
noncomputable def moon_ra (dt : ℝ) : ℝ :=
  atan2 (Real.sin (long_pert dt) * Real.cos obl_e -
      Real.tan (lat_pert dt) * Real.sin obl_e)
    (Real.cos (long_pert dt))

/-- moon.py line 128: the argument passed to math.asin for the moon declination. -/
noncomputable def moon_dec_arg (dt : ℝ) : ℝ :=
  Real.sin (lat_pert dt) * Real.cos obl_e +
    Real.cos (lat_pert dt) * Real.sin obl_e * Real.sin (long_pert dt)

/-- moon.py line 128: declination of the moon. -/
noncomputable def moon_dec (dt : ℝ) : ℝ := Real.arcsin (moon_dec_arg dt)

/-- moon.py line 131: hour angle of the moon,
H = self.sidereal_time(dt, lng_ra) - ra with lng_ra = math.radians(-lng). -/
noncomputable def moon_H (dt lng : ℝ) : ℝ :=
  sidereal_time dt (radians (-lng)) - moon_ra dt

/-- moon.py lines 110 and 132 (also main.py line 110): the argument passed to
math.asin in the altitude formula,
sin(lat)*sin(dec) + cos(lat)*cos(dec)*cos(H). -/
noncomputable def alt_arg (lat_ra dec H : ℝ) : ℝ :=
  Real.sin lat_ra * Real.sin dec + Real.cos lat_ra * Real.cos dec * Real.cos H

/-- moon.py lines 132-133: altitude of the moon in degrees. -/
noncomputable def moon_alt_deg (date lat lng : ℝ) : ℝ :=
  degrees (Real.arcsin (alt_arg (radians lat)
    (moon_dec (to_days_J2000 date)) (moon_H (to_days_J2000 date) lng)))

/-- moon.py lines 136-138: azimuth before the correction steps,
math.degrees(math.atan2(sin H, cos H * sin lat - tan dec * cos lat)) + 180. -/
noncomputable def az_pre (H lat_ra dec : ℝ) : ℝ :=
  degrees (atan2 (Real.sin H)
    (Real.cos H * Real.sin lat_ra - Real.tan dec * Real.cos lat_ra)) + 180

/-- moon.py lines 140-143: the two sequential single-step corrections,
if az_deg < 0: az_deg += 360; if az_deg > 360: az_deg -= 360. -/
noncomputable def az_step (a : ℝ) : ℝ :=
  let a1 := if a < 0 then a + 360 else a
  if a1 > 360 then a1 - 360 else a1

/-- moon.py lines 136-143: the azimuth returned by moon_position. -/
noncomputable def moon_azimuth (date lat lng : ℝ) : ℝ :=
  az_step (az_pre (moon_H (to_days_J2000 date) lng) (radians lat)
    (moon_dec (to_days_J2000 date)))

/-- moon.py lines 145-149: the brightness returned by moon_position. -/
noncomputable def moon_bright_val (date : ℝ) : ℝ :=
  moon_brightness (moon_ra (to_days_J2000 date)) (moon_dec (to_days_J2000 date))
    (sun_position (to_days_J2000 date)).1 (sun_position (to_days_J2000 date)).2

/-- moon.py lines 100-151, MoonPosition.moon_position:
returns (az_deg, alt_deg, moon_dist_pert, brightness). -/
noncomputable def moon_position (date lat lng : ℝ) : ℝ × ℝ × ℝ × ℝ :=
  (moon_azimuth date lat lng, moon_alt_deg date lat lng,
    moon_dist_pert (to_days_J2000 date), moon_bright_val date)

/-- main.py lines 105-106: while H > pi: H -= 2*pi.  Returns the final value
of H together with the number of loop iterations executed. -/
noncomputable def normSubAux (H : ℝ) : ℝ × ℕ :=
  if h : Real.pi < H then
    let p := normSubAux (H - 2 * Real.pi)
    (p.1, p.2 + 1)
  else (H, 0)
termination_by (Int.ceil ((H - Real.pi) / (2 * Real.pi))).toNat
decreasing_by
  have h2p : (0:ℝ) < 2 * Real.pi := by positivity
  have e1 : (H - 2 * Real.pi - Real.pi) / (2 * Real.pi) =
      (H - Real.pi) / (2 * Real.pi) - 1 := by field_simp; ring
  have e2 : Int.ceil ((H - 2 * Real.pi - Real.pi) / (2 * Real.pi)) =
      Int.ceil ((H - Real.pi) / (2 * Real.pi)) - 1 := by rw [e1, Int.ceil_sub_one]
  have e3 : 0 < Int.ceil ((H - Real.pi) / (2 * Real.pi)) := by
    rw [Int.ceil_pos]
    exact div_pos (by linarith) h2p
  simp only [e2]
  omega

/-- main.py lines 107-108: while H < -pi: H += 2*pi.  Returns the final value
of H together with the number of loop iterations executed. -/
noncomputable def normAddAux (H : ℝ) : ℝ × ℕ :=
  if h : H < -Real.pi then
    let p := normAddAux (H + 2 * Real.pi)
    (p.1, p.2 + 1)
  else (H, 0)
termination_by (Int.ceil ((-Real.pi - H) / (2 * Real.pi))).toNat
decreasing_by
  have h2p : (0:ℝ) < 2 * Real.pi := by positivity
  have e1 : (-Real.pi - (H + 2 * Real.pi)) / (2 * Real.pi) =
      (-Real.pi - H) / (2 * Real.pi) - 1 := by field_simp; ring
  have e2 : Int.ceil ((-Real.pi - (H + 2 * Real.pi)) / (2 * Real.pi)) =
      Int.ceil ((-Real.pi - H) / (2 * Real.pi)) - 1 := by rw [e1, Int.ceil_sub_one]
  have e3 : 0 < Int.ceil ((-Real.pi - H) / (2 * Real.pi)) := by
    rw [Int.ceil_pos]
    exact div_pos (by linarith) h2p
  simp only [e2]
  omega

/-- main.py lines 104-108: the full hour-angle normalization, first the
subtracting loop, then the adding loop. -/
noncomputable def normalize_H (H : ℝ) : ℝ := (normAddAux (normSubAux H).1).1

/-- main.py line 102: hour angle of the sun before normalization,
H = moon_calc.sidereal_time(dt, lng_ra) - sun_ra with lng_ra = math.radians(-lng). -/
noncomputable def bg_H_raw (t lng : ℝ) : ℝ :=
  sidereal_time (to_days_J2000 t) (radians (-lng)) - (sun_position (to_days_J2000 t)).1

/-- main.py lines 104-108: hour angle of the sun after the normalization loops. -/
noncomputable def bg_H_norm (t lng : ℝ) : ℝ := normalize_H (bg_H_raw t lng)

/-- main.py lines 110-111: altitude of the sun in degrees. -/
noncomputable def sun_alt_deg (t lat lng : ℝ) : ℝ :=
  degrees (Real.arcsin (alt_arg (radians lat)
    ((sun_position (to_days_J2000 t)).2) (bg_H_norm t lng)))

/-- The three day phases distinguished by main.py lines 113-122. -/
inductive DayPhase : Type
  | day : DayPhase
  | twilight : DayPhase
  | night : DayPhase

/-- main.py lines 113-122: the classification of a sun altitude in degrees,
if sun_alt_deg > 0: Day; elif sun_alt_deg < -18: Night; else: Twilight. -/
noncomputable def classify_sun_alt (alt : ℝ) : DayPhase :=
  if alt > 0 then DayPhase.day
  else if alt < -18 then DayPhase.night
  else DayPhase.twilight

/-- main.py lines 113-122: the background color returned for each phase. -/
def phase_color : DayPhase → ℕ × ℕ × ℕ
  | DayPhase.day => (0, 0, 50)
  | DayPhase.twilight => (50, 25, 0)
  | DayPhase.night => (0, 0, 0)

/-- main.py lines 78-122, get_background_color. -/
noncomputable def get_background_color (t lat lng : ℝ) : ℕ × ℕ × ℕ :=
  phase_color (classify_sun_alt (sun_alt_deg t lat lng))

/- Concrete inputs used for the boundary instances. -/

/-- The hour angle of the moon at date 0 and longitude lng, minus the
longitude contribution: moon_H (to_days_J2000 0) lng = c0_moon + radians lng. -/
noncomputable def c0_moon : ℝ :=
  radians (280.16 + 360.9856235 * to_days_J2000 0) - moon_ra (to_days_J2000 0)

/-- The integer number of whole turns closest to c0_moon. -/
noncomputable def k0_moon : ℤ := round (c0_moon / (2 * Real.pi))

/-- A longitude in the range from -180 to 180 at which, at date 0, the hour
angle of the moon is exactly k0_moon whole turns. -/
noncomputable def lng0 : ℝ := degrees (2 * Real.pi * k0_moon - c0_moon)

/-- A longitude (not range-restricted) at which, at date 0, the hour angle of
the moon is exactly 0. -/
noncomputable def lngA : ℝ := degrees (-c0_moon)

/-- The sun hour angle of the background classifier at date 0 and longitude
lng satisfies bg_H_raw 0 lng = c0_sun + radians lng. -/
noncomputable def c0_sun : ℝ :=
  radians (280.16 + 360.9856235 * to_days_J2000 0) - sun_ra (to_days_J2000 0)

/-- A longitude at which, at date 0, the raw sun hour angle of the background
classifier is exactly -pi. -/
noncomputable def lng1 : ℝ := degrees (-Real.pi - c0_sun)

/- ================= Helper lemmas ================= -/

lemma radians_degrees (x : ℝ) : radians (degrees x) = x := by
  unfold radians degrees
  field_simp

lemma radians_neg (x : ℝ) : radians (-x) = -radians x := by
  unfold radians; ring

lemma degrees_pi : degrees Real.pi = 180 := by
  unfold degrees
  field_simp

/-- Claim C9 helper and general fact: to_days_J2000 written with 86400. -/
lemma to_days_J2000_eq (t : ℝ) : to_days_J2000 t = t / 86400 - 0.5 + 2440588 - 2451545 := by
  unfold to_days_J2000 days_to_secs
  norm_num

/-- Claim C9: daysSinceJ2000 equals seconds/86400 - 0.5 + 2440588 - 2451545
and is linear in its input: shifting the instant by 86400 seconds shifts the
result by exactly one day. -/
theorem to_days_J2000_formula_and_linear :
    (∀ t : ℝ, to_days_J2000 t = t / 86400 - 0.5 + 2440588 - 2451545) ∧
    (∀ t : ℝ, to_days_J2000 (t + 86400) = to_days_J2000 t + 1) := by
  constructor
  · exact to_days_J2000_eq
  · intro t
    rw [to_days_J2000_eq, to_days_J2000_eq]
    ring

/-- Claim C8: moon_brightness is symmetric under swapping the two bodies,
because the acos argument depends only on the angular separation. -/
theorem moon_brightness_symm (a b c d : ℝ) :
    moon_brightness a b c d = moon_brightness c d a b := by
  have harg : phase_arg a b c d = phase_arg c d a b := by
    unfold phase_arg
    rw [show a - c = -(c - a) by ring, Real.cos_neg]
    ring
  unfold moon_brightness
  rw [harg]

/-- Claim C7: at phase angle 0 (identical right ascension and declination)
moon_brightness returns 1, and at phase angle pi (diametrically opposite
inputs, ra shifted by pi and declination negated) it returns 0. -/
theorem moon_brightness_extremes :
    (∀ ra dec : ℝ, moon_brightness ra dec ra dec = 1) ∧
    (∀ ra dec : ℝ, moon_brightness ra dec (ra + Real.pi) (-dec) = 0) := by
  constructor
  · intro ra dec
    have harg : phase_arg ra dec ra dec = 1 := by
      unfold phase_arg
      rw [sub_self, Real.cos_zero]
      have := Real.sin_sq_add_cos_sq dec
      nlinarith [this]
    unfold moon_brightness
    rw [harg, Real.arccos_one, Real.cos_zero]
    norm_num
  · intro ra dec
    have harg : phase_arg ra dec (ra + Real.pi) (-dec) = -1 := by
      unfold phase_arg
      rw [show ra + Real.pi - ra = Real.pi by ring, Real.cos_pi, Real.sin_neg,
        Real.cos_neg]
      have := Real.sin_sq_add_cos_sq dec
      nlinarith [this]
    unfold moon_brightness
    rw [harg, Real.arccos_neg_one, Real.cos_pi]
    norm_num

/-- Claim C5: the sun-altitude classifier is total and assigns each altitude
to exactly one phase: Day iff altitude > 0, Night iff altitude < -18,
Twilight iff -18 <= altitude <= 0; in particular altitude 0 and altitude -18
both classify as Twilight. -/
theorem classify_sun_alt_partition :
    (∀ alt : ℝ, (classify_sun_alt alt = DayPhase.day ↔ 0 < alt) ∧
      (classify_sun_alt alt = DayPhase.night ↔ alt < -18) ∧
      (classify_sun_alt alt = DayPhase.twilight ↔ (-18 ≤ alt ∧ alt ≤ 0))) ∧
    classify_sun_alt 0 = DayPhase.twilight ∧
    classify_sun_alt (-18) = DayPhase.twilight := by
  have key : ∀ alt : ℝ, (classify_sun_alt alt = DayPhase.day ↔ 0 < alt) ∧
      (classify_sun_alt alt = DayPhase.night ↔ alt < -18) ∧
      (classify_sun_alt alt = DayPhase.twilight ↔ (-18 ≤ alt ∧ alt ≤ 0)) := by
    intro alt
    unfold classify_sun_alt
    split_ifs with h1 h2
    · refine ⟨⟨fun _ => h1, fun _ => rfl⟩, ⟨fun h => ?_, fun h => ?_⟩,
        ⟨fun h => ?_, fun h => ?_⟩⟩
      · exact absurd h (by simp)
      · linarith
      · exact absurd h (by simp)
      · linarith [h.2]
    · refine ⟨⟨fun h => ?_, fun h => ?_⟩, ⟨fun _ => h2, fun _ => rfl⟩,
        ⟨fun h => ?_, fun h => ?_⟩⟩
      · exact absurd h (by simp)
      · exact absurd h h1
      · exact absurd h (by simp)
      · linarith [h.1]
    · refine ⟨⟨fun h => ?_, fun h => ?_⟩, ⟨fun h => ?_, fun h => ?_⟩,
        ⟨fun _ => ⟨by linarith, by linarith⟩, fun _ => rfl⟩⟩
      · exact absurd h (by simp)
      · exact absurd h h1
      · exact absurd h (by simp)
      · exact absurd h h2
  refine ⟨key, ?_, ?_⟩
  · have := (key 0).2.2.mpr ⟨by norm_num, le_refl 0⟩
    exact this
  · exact (key (-18)).2.2.mpr ⟨le_refl _, by norm_num⟩

/-- An affine function of c on the interval from -1 to 1 whose endpoint values
both lie in that interval stays in that interval. -/
lemma affine_abs_le (s p c : ℝ) (h1 : -1 ≤ s + p) (h2 : s + p ≤ 1)
    (h3 : -1 ≤ s - p) (h4 : s - p ≤ 1) (hc1 : -1 ≤ c) (hc2 : c ≤ 1) :
    |s + p * c| ≤ 1 := by
  rw [abs_le]
  constructor
  · nlinarith [mul_nonneg (by linarith : (0:ℝ) ≤ 1 + c) (by linarith : (0:ℝ) ≤ s + p + 1),
      mul_nonneg (by linarith : (0:ℝ) ≤ 1 - c) (by linarith : (0:ℝ) ≤ 1 + (s - p))]
  · nlinarith [mul_nonneg (by linarith : (0:ℝ) ≤ 1 + c) (by linarith : (0:ℝ) ≤ 1 - (s + p)),
      mul_nonneg (by linarith : (0:ℝ) ≤ 1 - c) (by linarith : (0:ℝ) ≤ 1 - (s - p))]

/-- The altitude-formula argument is always within the asin domain. -/
lemma alt_arg_abs_le (lat_ra dec H : ℝ) : |alt_arg lat_ra dec H| ≤ 1 := by
  unfold alt_arg
  have hs := Real.cos_sub lat_ra dec
  have ha := Real.cos_add lat_ra dec
  have h1 := Real.neg_one_le_cos (lat_ra - dec)
  have h2 := Real.cos_le_one (lat_ra - dec)
  have h3 := Real.neg_one_le_cos (lat_ra + dec)
  have h4 := Real.cos_le_one (lat_ra + dec)
  exact affine_abs_le _ _ _ (by linarith) (by linarith) (by linarith) (by linarith)
    (Real.neg_one_le_cos H) (Real.cos_le_one H)

/-- The phase-angle argument of moon_brightness is always within the acos
domain. -/
lemma phase_arg_abs_le (m1 m2 s1 s2 : ℝ) : |phase_arg m1 m2 s1 s2| ≤ 1 := by
  rw [show phase_arg m1 m2 s1 s2 = alt_arg s2 m2 (s1 - m1) from rfl]
  exact alt_arg_abs_le _ _ _

/-- The mixed sine-cosine combination appearing in the declination formulas is
always within the asin domain. -/
lemma mixed_arg_abs_le (a b c : ℝ) (hc1 : -1 ≤ c) (hc2 : c ≤ 1) :
    |Real.sin a * Real.cos b + Real.cos a * Real.sin b * c| ≤ 1 := by
  have hs := Real.sin_add a b
  have ha := Real.sin_sub a b
  have h1 := Real.neg_one_le_sin (a + b)
  have h2 := Real.sin_le_one (a + b)
  have h3 := Real.neg_one_le_sin (a - b)
  have h4 := Real.sin_le_one (a - b)
  exact affine_abs_le _ _ _ (by linarith) (by linarith) (by linarith) (by linarith) hc1 hc2

/-- The sun-declination asin argument is always within the asin domain. -/
lemma sun_dec_arg_abs_le (d : ℝ) : |sun_dec_arg d| ≤ 1 := by
  unfold sun_dec_arg
  rw [abs_mul]
  have h1 := abs_nonneg (Real.sin obl_e)
  have h2 := abs_nonneg (Real.sin (lambda_sun d))
  have h3 : |Real.sin obl_e| ≤ 1 := abs_le.mpr ⟨Real.neg_one_le_sin _, Real.sin_le_one _⟩
  have h4 : |Real.sin (lambda_sun d)| ≤ 1 :=
    abs_le.mpr ⟨Real.neg_one_le_sin _, Real.sin_le_one _⟩
  nlinarith

/-- The moon-declination asin argument is always within the asin domain. -/
lemma moon_dec_arg_abs_le (dt : ℝ) : |moon_dec_arg dt| ≤ 1 := by
  unfold moon_dec_arg
  exact mixed_arg_abs_le _ _ _ (Real.neg_one_le_sin _) (Real.sin_le_one _)

/-- Claim C6: every argument passed to asin and acos in the lunar-position,
solar-position, brightness, and background-classifier computations has
magnitude at most 1 (this in fact holds for every real latitude, longitude
and instant; the hypotheses of the claim are not even needed). -/
theorem asin_acos_args_in_domain (date lat lng : ℝ)
    (hlat1 : -90 ≤ lat) (hlat2 : lat ≤ 90) :
    |sun_dec_arg (to_days_J2000 date)| ≤ 1 ∧
    |moon_dec_arg (to_days_J2000 date)| ≤ 1 ∧
    |alt_arg (radians lat) (moon_dec (to_days_J2000 date))
      (moon_H (to_days_J2000 date) lng)| ≤ 1 ∧
    |phase_arg (moon_ra (to_days_J2000 date)) (moon_dec (to_days_J2000 date))
      (sun_position (to_days_J2000 date)).1 (sun_position (to_days_J2000 date)).2| ≤ 1 ∧
    |alt_arg (radians lat) ((sun_position (to_days_J2000 date)).2)
      (bg_H_norm date lng)| ≤ 1 :=
  ⟨sun_dec_arg_abs_le _, moon_dec_arg_abs_le _, alt_arg_abs_le _ _ _,
    phase_arg_abs_le _ _ _ _, alt_arg_abs_le _ _ _⟩

/-- Witness for claim C6 at date 0, latitude 0, longitude 0. -/
theorem asin_acos_args_in_domain_witness :
    (-90 ≤ (0:ℝ) ∧ (0:ℝ) ≤ 90) ∧
    (|sun_dec_arg (to_days_J2000 0)| ≤ 1 ∧
      |moon_dec_arg (to_days_J2000 0)| ≤ 1 ∧
      |alt_arg (radians 0) (moon_dec (to_days_J2000 0)) (moon_H (to_days_J2000 0) 0)| ≤ 1 ∧
      |phase_arg (moon_ra (to_days_J2000 0)) (moon_dec (to_days_J2000 0))
        (sun_position (to_days_J2000 0)).1 (sun_position (to_days_J2000 0)).2| ≤ 1 ∧
      |alt_arg (radians 0) ((sun_position (to_days_J2000 0)).2) (bg_H_norm 0 0)| ≤ 1) :=
  ⟨⟨by norm_num, by norm_num⟩,
    asin_acos_args_in_domain 0 0 0 (by norm_num) (by norm_num)⟩

/-- The two-argument arctangent takes values in the half-open interval from
-pi (excluded) to pi (included). -/
lemma atan2_range (y x : ℝ) : -Real.pi < atan2 y x ∧ atan2 y x ≤ Real.pi := by
  have hpi := Real.pi_pos
  have hb1 := Real.arctan_lt_pi_div_two (y / x)
  have hb2 := Real.neg_pi_div_two_lt_arctan (y / x)
  unfold atan2
  split_ifs with h1 h2 h3 h4 h5
  · constructor <;> linarith
  · constructor <;> linarith
  · constructor <;> linarith
  · constructor <;> linarith
  · have hxneg : x < 0 := lt_of_le_of_ne (not_lt.mp h1) h2
    have hdiv : y / x ≤ 0 := div_nonpos_of_nonneg_of_nonpos h5 hxneg.le
    have harct : Real.arctan (y / x) ≤ 0 := by
      have := Real.arctan_strictMono.monotone hdiv
      rwa [Real.arctan_zero] at this
    constructor <;> linarith
  · have hxneg : x < 0 := lt_of_le_of_ne (not_lt.mp h1) h2
    have hy : y < 0 := not_le.mp h5
    have hdiv : 0 < y / x := div_pos_of_neg_of_neg hy hxneg
    have harct : 0 < Real.arctan (y / x) := by
      have := Real.arctan_strictMono hdiv
      rwa [Real.arctan_zero] at this
    constructor <;> linarith

/-- The uncorrected azimuth value always lies strictly above 0 and at most 360. -/
lemma az_pre_range (H lat_ra dec : ℝ) :
    0 < az_pre H lat_ra dec ∧ az_pre H lat_ra dec ≤ 360 := by
  have hpi := Real.pi_pos
  obtain ⟨hl, hu⟩ := atan2_range (Real.sin H)
    (Real.cos H * Real.sin lat_ra - Real.tan dec * Real.cos lat_ra)
  unfold az_pre degrees
  have hcoef : 0 < 180 / Real.pi := by positivity
  constructor
  · have : (-Real.pi) * (180 / Real.pi) <
        atan2 (Real.sin H) (Real.cos H * Real.sin lat_ra - Real.tan dec * Real.cos lat_ra) *
          (180 / Real.pi) := by
      exact mul_lt_mul_of_pos_right hl hcoef
    have hval : (-Real.pi) * (180 / Real.pi) = -180 := by
      field_simp
      try ring
    linarith [hval ▸ this]
  · have : atan2 (Real.sin H) (Real.cos H * Real.sin lat_ra - Real.tan dec * Real.cos lat_ra) *
        (180 / Real.pi) ≤ Real.pi * (180 / Real.pi) := by
      exact mul_le_mul_of_nonneg_right hu hcoef.le
    have hval : Real.pi * (180 / Real.pi) = 180 := by
      field_simp
      try ring
    linarith [hval ▸ this]

/-- On the interval reachable from az_pre, the correction steps are the
identity. -/
lemma az_step_id (a : ℝ) (h1 : 0 < a) (h2 : a ≤ 360) : az_step a = a := by
  unfold az_step
  simp only
  have hinner : (if a < 0 then a + 360 else a) = a := if_neg (not_lt.mpr h1.le)
  rw [hinner, if_neg (not_lt.mpr h2)]

/-- Claim C2: the azimuth returned by moon_position is the degree conversion
of atan2 of the hour-angle formula, plus 180, followed by exactly the two
sequential single-step corrections; the corrections are not re-checked (a
value still outside the range after one correction is returned as is). -/
theorem moon_azimuth_formula :
    (∀ date lat lng : ℝ,
      (moon_position date lat lng).1 =
        az_step (degrees (atan2 (Real.sin (moon_H (to_days_J2000 date) lng))
          (Real.cos (moon_H (to_days_J2000 date) lng) * Real.sin (radians lat) -
            Real.tan (moon_dec (to_days_J2000 date)) * Real.cos (radians lat))) + 180)) ∧
    (∀ a : ℝ, az_step a =
      if (if a < 0 then a + 360 else a) > 360 then (if a < 0 then a + 360 else a) - 360
      else (if a < 0 then a + 360 else a)) ∧
    az_step (-400) = -40 ∧ az_step 760 = 400 := by
  refine ⟨fun date lat lng => rfl, fun a => rfl, ?_, ?_⟩
  · unfold az_step
    norm_num
  · unfold az_step
    norm_num

lemma moon_H_split (dt lng : ℝ) :
    moon_H dt lng = (radians (280.16 + 360.9856235 * dt) - moon_ra dt) + radians lng := by
  unfold moon_H sidereal_time
  rw [radians_neg]
  ring

lemma moon_H_lng0 : moon_H (to_days_J2000 0) lng0 = ((2 * k0_moon : ℤ) : ℝ) * Real.pi := by
  rw [moon_H_split]
  unfold lng0
  rw [radians_degrees]
  unfold c0_moon
  push_cast
  ring

lemma sin_moon_H_lng0 : Real.sin (moon_H (to_days_J2000 0) lng0) = 0 := by
  rw [moon_H_lng0]
  exact Real.sin_int_mul_pi _

lemma cos_moon_H_lng0 : Real.cos (moon_H (to_days_J2000 0) lng0) = 1 := by
  rw [moon_H_lng0]
  have h : ((2 * k0_moon : ℤ) : ℝ) * Real.pi = (k0_moon : ℝ) * (2 * Real.pi) := by
    push_cast
    ring
  rw [h]
  exact_mod_cast Real.cos_int_mul_two_pi k0_moon

lemma moon_H_lngA : moon_H (to_days_J2000 0) lngA = 0 := by
  rw [moon_H_split]
  unfold lngA
  rw [radians_degrees]
  unfold c0_moon
  ring

lemma atan2_zero_neg_one : atan2 0 (-1) = Real.pi := by
  unfold atan2
  have h1 : ¬((0:ℝ) < -1) := by norm_num
  have h2 : ¬((-1:ℝ) = 0) := by norm_num
  have h3 : (0:ℝ) ≤ 0 := le_refl 0
  rw [if_neg h1, if_neg h2, if_pos h3]
  norm_num [Real.arctan_zero]

/-- At a multiple of a full turn for the hour angle and at latitude -90, the
uncorrected azimuth is exactly 360. -/
lemma az_pre_special (H dec : ℝ) (hs : Real.sin H = 0) (hc : Real.cos H = 1) :
    az_pre H (radians (-90)) dec = 360 := by
  have hlat : radians (-90) = -(Real.pi / 2) := by
    unfold radians
    ring
  unfold az_pre
  rw [hlat, hs, hc, Real.sin_neg, Real.cos_neg, Real.sin_pi_div_two, Real.cos_pi_div_two]
  norm_num
  rw [atan2_zero_neg_one, degrees_pi]
  norm_num

lemma moon_azimuth_360_lng0 : (moon_position 0 (-90) lng0).1 = 360 := by
  show moon_azimuth 0 (-90) lng0 = 360
  unfold moon_azimuth
  rw [az_pre_special _ _ sin_moon_H_lng0 cos_moon_H_lng0]
  exact az_step_id 360 (by norm_num) (by norm_num)

lemma moon_azimuth_360_lngA : (moon_position 0 (-90) lngA).1 = 360 := by
  show moon_azimuth 0 (-90) lngA = 360
  unfold moon_azimuth
  have hs : Real.sin (moon_H (to_days_J2000 0) lngA) = 0 := by
    rw [moon_H_lngA, Real.sin_zero]
  have hc : Real.cos (moon_H (to_days_J2000 0) lngA) = 1 := by
    rw [moon_H_lngA, Real.cos_zero]
  rw [az_pre_special _ _ hs hc]
  exact az_step_id 360 (by norm_num) (by norm_num)

lemma abs_lng0_le : |lng0| ≤ 180 := by
  have hpi := Real.pi_pos
  set x := c0_moon / (2 * Real.pi) with hx
  have hr : |x - (round x : ℝ)| ≤ 1 / 2 := abs_sub_round x
  have hc : c0_moon = x * (2 * Real.pi) := by
    rw [hx]
    field_simp
  have key : |2 * Real.pi * ((k0_moon : ℤ) : ℝ) - c0_moon| ≤ Real.pi := by
    have heq : 2 * Real.pi * ((k0_moon : ℤ) : ℝ) - c0_moon =
        -(2 * Real.pi) * (x - (round x : ℝ)) := by
      rw [hc]
      unfold k0_moon
      rw [← hx]
      ring
    rw [heq, abs_mul, abs_neg, abs_of_pos (by positivity : (0:ℝ) < 2 * Real.pi)]
    nlinarith
  unfold lng0 degrees
  rw [abs_mul, abs_of_pos (by positivity : (0:ℝ) < 180 / Real.pi)]
  calc |2 * Real.pi * (k0_moon : ℝ) - c0_moon| * (180 / Real.pi)
      ≤ Real.pi * (180 / Real.pi) := mul_le_mul_of_nonneg_right key (by positivity)
    _ = 180 := by
      field_simp

/-- Claim C3: the uncorrected azimuth always lies in the half-open interval
from 0 (excluded) to 360 (included), so the negative-correction branch is
unreachable and both corrections are the identity on reachable values; the
azimuth moon_position returns can equal exactly 360 but never exactly 0. -/
theorem az_pre_interval_and_azimuth_boundaries :
    (∀ H lat_ra dec : ℝ, 0 < az_pre H lat_ra dec ∧ az_pre H lat_ra dec ≤ 360) ∧
    (∀ date lat lng : ℝ, (moon_position date lat lng).1 =
      az_pre (moon_H (to_days_J2000 date) lng) (radians lat)
        (moon_dec (to_days_J2000 date))) ∧
    (∀ date lat lng : ℝ, (moon_position date lat lng).1 ≠ 0) ∧
    (∃ date lat lng : ℝ, (moon_position date lat lng).1 = 360) := by
  refine ⟨az_pre_range, ?_, ?_, ⟨0, -90, lngA, moon_azimuth_360_lngA⟩⟩
  · intro date lat lng
    show moon_azimuth date lat lng = _
    unfold moon_azimuth
    obtain ⟨h1, h2⟩ := az_pre_range (moon_H (to_days_J2000 date) lng) (radians lat)
      (moon_dec (to_days_J2000 date))
    exact az_step_id _ h1 h2
  · intro date lat lng
    show moon_azimuth date lat lng ≠ 0
    unfold moon_azimuth
    obtain ⟨h1, h2⟩ := az_pre_range (moon_H (to_days_J2000 date) lng) (radians lat)
      (moon_dec (to_days_J2000 date))
    rw [az_step_id _ h1 h2]
    exact ne_of_gt h1

/-- The degree conversion of any arcsine value lies between -90 and 90. -/
lemma degrees_arcsin_range (x : ℝ) :
    -90 ≤ degrees (Real.arcsin x) ∧ degrees (Real.arcsin x) ≤ 90 := by
  have hpi := Real.pi_pos
  have h1 := Real.neg_pi_div_two_le_arcsin x
  have h2 := Real.arcsin_le_pi_div_two x
  have hcoef : (0:ℝ) < 180 / Real.pi := by positivity
  unfold degrees
  constructor
  · have hm := mul_le_mul_of_nonneg_right h1 hcoef.le
    have hval : -(Real.pi / 2) * (180 / Real.pi) = -90 := by
      field_simp
      try ring
    linarith [hval ▸ hm]
  · have hm := mul_le_mul_of_nonneg_right h2 hcoef.le
    have hval : (Real.pi / 2) * (180 / Real.pi) = 90 := by
      field_simp
      try ring
    linarith [hval ▸ hm]

/-- The illuminated fraction always lies between 0 and 1. -/
lemma moon_brightness_range (a b c d : ℝ) :
    0 ≤ moon_brightness a b c d ∧ moon_brightness a b c d ≤ 1 := by
  unfold moon_brightness
  have h1 := Real.neg_one_le_cos (Real.arccos (phase_arg a b c d))
  have h2 := Real.cos_le_one (Real.arccos (phase_arg a b c d))
  constructor <;> linarith

/-- Claim C1 (amended): for latitude in -90..90, longitude in -180..180 and
any instant, the altitude returned by moon_position lies in -90..90, the
azimuth lies in the half-open interval from 0 (excluded) to 360 (included),
and the brightness lies in 0..1. -/
theorem moon_position_output_ranges (date lat lng : ℝ)
    (hlat1 : -90 ≤ lat) (hlat2 : lat ≤ 90) (hlng1 : -180 ≤ lng) (hlng2 : lng ≤ 180) :
    (-90 ≤ (moon_position date lat lng).2.1 ∧ (moon_position date lat lng).2.1 ≤ 90) ∧
    (0 < (moon_position date lat lng).1 ∧ (moon_position date lat lng).1 ≤ 360) ∧
    (0 ≤ (moon_position date lat lng).2.2.2 ∧ (moon_position date lat lng).2.2.2 ≤ 1) := by
  refine ⟨degrees_arcsin_range _, ?_, moon_brightness_range _ _ _ _⟩
  obtain ⟨h1, h2⟩ := az_pre_range (moon_H (to_days_J2000 date) lng) (radians lat)
    (moon_dec (to_days_J2000 date))
  have heq : (moon_position date lat lng).1 =
      az_pre (moon_H (to_days_J2000 date) lng) (radians lat)
        (moon_dec (to_days_J2000 date)) := az_step_id _ h1 h2
  rw [heq]
  exact ⟨h1, h2⟩

/-- Witness for the amended claim C1 at date 0, latitude 0, longitude 0. -/
theorem moon_position_output_ranges_witness :
    (-90 ≤ (0:ℝ) ∧ (0:ℝ) ≤ 90 ∧ -180 ≤ (0:ℝ) ∧ (0:ℝ) ≤ 180) ∧
    ((-90 ≤ (moon_position 0 0 0).2.1 ∧ (moon_position 0 0 0).2.1 ≤ 90) ∧
      (0 < (moon_position 0 0 0).1 ∧ (moon_position 0 0 0).1 ≤ 360) ∧
      (0 ≤ (moon_position 0 0 0).2.2.2 ∧ (moon_position 0 0 0).2.2.2 ≤ 1)) :=
  ⟨⟨by norm_num, by norm_num, by norm_num, by norm_num⟩,
    moon_position_output_ranges 0 0 0 (by norm_num) (by norm_num) (by norm_num) (by norm_num)⟩

/-- Counterexample to claim C1 as stated: at date 0, latitude -90 and the
longitude lng0 (which lies between -180 and 180), moon_position returns the
azimuth exactly 360, which is not below 360, so the azimuth is not always in
the half-open interval from 0 (included) to 360 (excluded). -/
theorem moon_position_azimuth_counterexample :
    (-90 ≤ (-90:ℝ) ∧ (-90:ℝ) ≤ 90 ∧ -180 ≤ lng0 ∧ lng0 ≤ 180) ∧
    (moon_position 0 (-90) lng0).1 = 360 ∧
    ¬((moon_position 0 (-90) lng0).1 < 360) := by
  obtain ⟨hl, hu⟩ := abs_le.mp abs_lng0_le
  refine ⟨⟨by norm_num, by norm_num, hl, hu⟩, moon_azimuth_360_lng0, ?_⟩
  rw [moon_azimuth_360_lng0]
  norm_num

/-- The subtracting normalization loop exits with a value at most pi, having
subtracted exactly one full turn per iteration. -/
lemma normSubAux_spec (H : ℝ) :
    (normSubAux H).1 ≤ Real.pi ∧
      (normSubAux H).1 = H - 2 * Real.pi * ((normSubAux H).2 : ℝ) := by
  induction H using normSubAux.induct with
  | case1 x hx ih =>
      rw [normSubAux]
      simp only [dif_pos hx]
      obtain ⟨ih1, ih2⟩ := ih
      refine ⟨ih1, ?_⟩
      push_cast
      rw [ih2]
      ring
  | case2 x hx =>
      rw [normSubAux]
      simp only [dif_neg hx]
      exact ⟨le_of_not_lt hx, by norm_num⟩

/-- The adding normalization loop exits with a value at least -pi, having
added exactly one full turn per iteration. -/
lemma normAddAux_spec (H : ℝ) :
    -Real.pi ≤ (normAddAux H).1 ∧
      (normAddAux H).1 = H + 2 * Real.pi * ((normAddAux H).2 : ℝ) := by
  induction H using normAddAux.induct with
  | case1 x hx ih =>
      rw [normAddAux]
      simp only [dif_pos hx]
      obtain ⟨ih1, ih2⟩ := ih
      refine ⟨ih1, ?_⟩
      push_cast
      rw [ih2]
      ring
  | case2 x hx =>
      rw [normAddAux]
      simp only [dif_neg hx]
      exact ⟨le_of_not_lt hx, by norm_num⟩

/-- The adding normalization loop never pushes a value that is at most pi
above pi. -/
lemma normAddAux_fst_le : ∀ H : ℝ, H ≤ Real.pi → (normAddAux H).1 ≤ Real.pi := by
  intro H
  induction H using normAddAux.induct with
  | case1 x hx ih =>
      intro _
      rw [normAddAux]
      simp only [dif_pos hx]
      exact ih (by linarith)
  | case2 x hx =>
      intro h
      rw [normAddAux]
      simp only [dif_neg hx]
      exact h

/-- The full normalization lands in the closed interval from -pi to pi. -/
lemma normalize_H_mem (H : ℝ) :
    -Real.pi ≤ normalize_H H ∧ normalize_H H ≤ Real.pi := by
  unfold normalize_H
  exact ⟨(normAddAux_spec _).1, normAddAux_fst_le _ (normSubAux_spec H).1⟩

/-- The full normalization changes its input by a whole number of turns. -/
lemma normalize_H_turns (H : ℝ) : ∃ k : ℤ, normalize_H H = H + 2 * Real.pi * k := by
  obtain ⟨hs1, hs2⟩ := normSubAux_spec H
  obtain ⟨ha1, ha2⟩ := normAddAux_spec (normSubAux H).1
  refine ⟨((normAddAux (normSubAux H).1).2 : ℤ) - ((normSubAux H).2 : ℤ), ?_⟩
  unfold normalize_H
  rw [ha2, hs2]
  push_cast
  ring

/-- Claim C4 (amended): the background classifier computes the sun hour angle
as sidereal time minus sun right ascension and then normalizes it by whole
turns into the closed interval from -pi to pi (not the half-open interval
excluding -pi: the value -pi is left unchanged by both loops). -/
theorem bg_hour_angle_normalization :
    (∀ t lng : ℝ, bg_H_raw t lng =
      sidereal_time (to_days_J2000 t) (radians (-lng)) -
        (sun_position (to_days_J2000 t)).1) ∧
    (∀ t lng : ℝ, bg_H_norm t lng = normalize_H (bg_H_raw t lng)) ∧
    (∀ H : ℝ, -Real.pi ≤ normalize_H H ∧ normalize_H H ≤ Real.pi) ∧
    (∀ H : ℝ, ∃ k : ℤ, normalize_H H = H + 2 * Real.pi * k) :=
  ⟨fun _ _ => rfl, fun _ _ => rfl, normalize_H_mem, normalize_H_turns⟩

/-- The value -pi is a fixed point of the normalization. -/
lemma normalize_H_neg_pi : normalize_H (-Real.pi) = -Real.pi := by
  have hpi := Real.pi_pos
  have hsub : normSubAux (-Real.pi) = (-Real.pi, 0) := by
    rw [normSubAux, dif_neg (by linarith : ¬ Real.pi < -Real.pi)]
  have hadd : normAddAux (-Real.pi) = (-Real.pi, 0) := by
    rw [normAddAux, dif_neg (lt_irrefl (-Real.pi))]
  unfold normalize_H
  rw [hsub]
  simp only
  rw [hadd]

lemma bg_H_split (t lng : ℝ) :
    bg_H_raw t lng = (radians (280.16 + 360.9856235 * to_days_J2000 t) -
      sun_ra (to_days_J2000 t)) + radians lng := by
  unfold bg_H_raw sidereal_time sun_position
  simp only
  rw [radians_neg]
  ring

lemma bg_H_raw_lng1 : bg_H_raw 0 lng1 = -Real.pi := by
  rw [bg_H_split]
  unfold lng1
  rw [radians_degrees]
  unfold c0_sun
  ring

/-- Counterexample to claim C4 as stated: at date 0 and longitude lng1 the
raw sun hour angle of the background classifier is exactly -pi, the
normalization leaves it at -pi, and -pi does not lie in the half-open
interval from -pi (excluded) to pi (included). -/
theorem bg_H_norm_counterexample :
    bg_H_norm 0 lng1 = -Real.pi ∧
    bg_H_norm 0 lng1 ∉ Set.Ioc (-Real.pi) Real.pi := by
  have h : bg_H_norm 0 lng1 = -Real.pi := by
    unfold bg_H_norm
    rw [bg_H_raw_lng1]
    exact normalize_H_neg_pi
  refine ⟨h, ?_⟩
  rw [h]
  intro hmem
  exact lt_irrefl _ (Set.mem_Ioc.mp hmem).1

/-- The subtracting loop runs n times on an input n full turns above pi. -/
lemma normSubAux_steps_linear :
    ∀ n : ℕ, (normSubAux ((2 * (n:ℝ) + 1) * Real.pi)).2 = n := by
  intro n
  induction n with
  | zero =>
      have h : (2 * ((0:ℕ):ℝ) + 1) * Real.pi = Real.pi := by norm_num
      rw [h, normSubAux, dif_neg (lt_irrefl Real.pi)]
  | succ k ihk =>
      have h1 : (2 * (((k+1):ℕ):ℝ) + 1) * Real.pi =
          ((2 * (k:ℝ) + 1) * Real.pi) + 2 * Real.pi := by
        push_cast
        ring
      have hk : (0:ℝ) ≤ (k:ℝ) := Nat.cast_nonneg k
      have hpi := Real.pi_pos
      rw [h1, normSubAux]
      rw [dif_pos (by nlinarith : Real.pi < (2 * (k:ℝ) + 1) * Real.pi + 2 * Real.pi)]
      have h2 : (2 * (k:ℝ) + 1) * Real.pi + 2 * Real.pi - 2 * Real.pi =
          (2 * (k:ℝ) + 1) * Real.pi := by ring
      simp only [h2]
      rw [ihk]

/-- Claim C10 (amended): both normalization loops terminate for every real
input, reaching their exit conditions after finitely many one-turn steps, but
the number of iterations is not a constant: on an input n full turns above
pi the subtracting loop runs exactly n times, so the iteration count grows
without bound with the input. -/
theorem normalization_loops_terminate_not_constant :
    (∀ H : ℝ, (normSubAux H).1 ≤ Real.pi ∧
      (normSubAux H).1 = H - 2 * Real.pi * ((normSubAux H).2 : ℝ)) ∧
    (∀ H : ℝ, -Real.pi ≤ (normAddAux H).1 ∧
      (normAddAux H).1 = H + 2 * Real.pi * ((normAddAux H).2 : ℝ)) ∧
    (∀ H : ℝ, -Real.pi ≤ normalize_H H ∧ normalize_H H ≤ Real.pi) ∧
    (∀ n : ℕ, (normSubAux ((2 * (n:ℝ) + 1) * Real.pi)).2 = n) :=
  ⟨normSubAux_spec, normAddAux_spec, normalize_H_mem, normSubAux_steps_linear⟩

/-- Counterexample to claim C10 as stated: the normalization loop iteration
count is not independent of the input: it is 2 on the input 4 pi and 0 on
the input 0. -/
theorem normalization_steps_counterexample :
    (normSubAux (4 * Real.pi)).2 = 2 ∧ (normSubAux 0).2 = 0 ∧
    (normSubAux (4 * Real.pi)).2 ≠ (normSubAux 0).2 := by
  have hpi := Real.pi_pos
  have h4 : (normSubAux (4 * Real.pi)).2 = 2 := by
    rw [normSubAux]
    rw [dif_pos (by linarith : Real.pi < 4 * Real.pi)]
    have e1 : 4 * Real.pi - 2 * Real.pi = 2 * Real.pi := by ring
    rw [e1, normSubAux]
    rw [dif_pos (by linarith : Real.pi < 2 * Real.pi)]
    have e2 : 2 * Real.pi - 2 * Real.pi = 0 := by ring
    rw [e2, normSubAux]
    rw [dif_neg (by linarith : ¬ Real.pi < 0)]
  have h0 : (normSubAux 0).2 = 0 := by
    rw [normSubAux]
    rw [dif_neg (by linarith : ¬ Real.pi < 0)]
  refine ⟨h4, h0, ?_⟩
  rw [h4, h0]
  norm_num
